import Mathlib

/-!
Verification development for the ADT semantic model and expression-level
diagnostics of a source-analysis engine (crates ra_hir_def/src/adt.rs and
ra_hir_ty/src/expr.rs). Semantic arenas are modelled as Lean lists whose
indices play the role of local arena ids.
-/

namespace RAnalyzer

/-- Modelled from the spec: identifier names (`hir_expand::name::Name` is not
under src/). The "missing name" sentinel is an explicit case, distinguishable
from every real identifier, and tuple-field names are synthesized from the
positional index. -/
inductive Name where
  | text (s : String)
  | tupleField (i : Nat)
  | missing
deriving DecidableEq, Repr

/-- Embeds `Name::new_tuple_field` as consumed by the field-list lowering. -/
def Name.new_tuple_field (i : Nat) : Name := Name.tupleField i

/-- Embeds `ast::Name::as_name()`: a present name token becomes a textual name. -/
def Name.as_name (s : String) : Name := Name.text s

/-- Modelled from the spec: a declared type reference (`type_ref::TypeRef` is
not under src/). An omitted field type becomes a placeholder error type
reference. Concrete type syntax nodes are abstracted as numeric ids. -/
inductive TypeRef where
  | fromAst (node : Nat)
  | error
deriving DecidableEq, Repr

/-- Embeds `TypeRef::from_ast_opt`: absent type syntax degrades to the error
placeholder. -/
def TypeRef.from_ast_opt : Option Nat → TypeRef
  | some node => TypeRef.fromAst node
  | none => TypeRef.error

/-- Modelled from the spec: resolved visibility (`visibility::RawVisibility`
is not under src/); unspecified visibility defaults to private/inherited. -/
inductive RawVisibility where
  | publicVis
  | privateVis
deriving DecidableEq, Repr

/-- Embeds `RawVisibility::from_ast`: an absent visibility node resolves to the
private/inherited default. -/
def RawVisibility.from_ast : Option RawVisibility → RawVisibility
  | some v => v
  | none => RawVisibility.privateVis

/-! Concrete-syntax view consumed by the ADT builders (interface of §6 of the
spec: field lists, variant lists, name tokens, type and visibility nodes). -/

/-- A tuple-style field definition node: optional declared type, optional
visibility. -/
structure TupleFieldDef where
  type_ref : Option Nat
  visibility : Option RawVisibility
deriving DecidableEq, Repr

/-- A record-style field definition node: optional name token, optional
ascribed type, optional visibility. -/
structure RecordFieldDef where
  name : Option String
  ascribed_type : Option Nat
  visibility : Option RawVisibility
deriving DecidableEq, Repr

/-- Embeds `ast::StructKind`: the syntactic shape of a field list. -/
inductive AstStructKind where
  | tuple (fields : List TupleFieldDef)
  | record (fields : List RecordFieldDef)
  | unit
deriving DecidableEq, Repr

/-- Embeds `ast::EnumVariant`: optional name token plus a field-list shape. -/
structure AstEnumVariant where
  name : Option String
  kind : AstStructKind
deriving DecidableEq, Repr

/-- Embeds `ast::EnumDef`: optional name token and an optional variant list. -/
structure AstEnumDef where
  name : Option String
  variant_list : Option (List AstEnumVariant)
deriving DecidableEq, Repr

/-- Embeds `ast::StructDef`: optional name token and a field-list shape. -/
structure AstStructDef where
  name : Option String
  kind : AstStructKind
deriving DecidableEq, Repr

/-- Embeds `ast::UnionDef`: optional name token and an optional record field list
(unions have no tuple-style fields). -/
structure AstUnionDef where
  name : Option String
  record_field_def_list : Option (List RecordFieldDef)
deriving DecidableEq, Repr

/-! Semantic arena model (adt.rs). Arenas are lists; a local id is the list
index. -/

/-- A single field of an enum variant or struct (`StructFieldData`). -/
structure StructFieldData where
  name : Name
  type_ref : TypeRef
  visibility : RawVisibility
deriving DecidableEq, Repr

/-- Local field ids are arena indices. -/
abbrev LocalStructFieldId := Nat

/-- Local enum-variant ids are arena indices. -/
abbrev LocalEnumVariantId := Nat

/-- Embeds `VariantData`: the shape of one struct, union, or enum variant. -/
inductive VariantData where
  | record (fields : List StructFieldData)
  | tuple (fields : List StructFieldData)
  | unit
deriving DecidableEq, Repr

/-- Embeds `StructKind`: the shape tag returned by field-list lowering. -/
inductive StructKind where
  | tuple
  | record
  | unit
deriving DecidableEq, Repr

/-- Embeds `EnumVariantData`: name plus shared shape data. -/
structure EnumVariantData where
  name : Name
  variant_data : VariantData
deriving DecidableEq, Repr

/-- Embeds `StructData` (also used for unions): definition name plus shared shape
data. -/
structure StructData where
  name : Name
  variant_data : VariantData
deriving DecidableEq, Repr

/-- Embeds `EnumData`: definition name plus the ordered variant arena. -/
structure EnumData where
  name : Name
  variants : List EnumVariantData
deriving DecidableEq, Repr

/-- Modelled from the spec: the source-correlated allocator `Trace`
(`ra_arena::map::Trace` is not under src/). It optionally accumulates a
semantic arena and optionally a position-aligned list of originating syntax
nodes; `alloc` appends to whichever collections are present. -/
structure Trace (T : Type) (V : Type) where
  arena : Option (List T)
  map : Option (List V)

/-- Embeds `Trace::new_for_arena`: accumulate only the semantic arena. -/
def Trace.new_for_arena {T V : Type} : Trace T V := ⟨some [], none⟩

/-- Embeds `Trace::new_for_map`: accumulate only the id-to-syntax map. -/
def Trace.new_for_map {T V : Type} : Trace T V := ⟨none, some []⟩

/-- Embeds `Trace::alloc`: append the semantic value to the arena and the syntax
node to the parallel map, each when present. -/
def Trace.alloc {T V : Type} (t : Trace T V) (node : V) (value : T) : Trace T V :=
  { arena := t.arena.map (fun a => a ++ [value]),
    map := t.map.map (fun m => m ++ [node]) }

/-- Embeds `Trace::into_arena`: finalize to the semantic arena. -/
def Trace.into_arena {T V : Type} (t : Trace T V) : List T := t.arena.getD []

/-- Embeds `Trace::into_map`: finalize to the index-to-syntax-node map. -/
def Trace.into_map {T V : Type} (t : Trace T V) : List V := t.map.getD []

/-- The semantic value built for the `i`-th tuple-style field node
(the value thunk of `lower_struct`'s tuple branch). -/
def lowered_tuple_field (i : Nat) (fd : TupleFieldDef) : StructFieldData :=
  { name := Name.new_tuple_field i,
    type_ref := TypeRef.from_ast_opt fd.type_ref,
    visibility := RawVisibility.from_ast fd.visibility }

/-- The semantic value built for a record-style field node (the value thunk
of `lower_struct`'s record branch). -/
def lowered_record_field (fd : RecordFieldDef) : StructFieldData :=
  { name := (fd.name.map Name.as_name).getD Name.missing,
    type_ref := TypeRef.from_ast_opt fd.ascribed_type,
    visibility := RawVisibility.from_ast fd.visibility }

/-- Embeds `lower_struct`: walk a syntactic field list, allocating one semantic
field per source field through the trace, and return the shape tag. -/
def lower_struct (trace : Trace StructFieldData (Sum TupleFieldDef RecordFieldDef))
    (ast : AstStructKind) :
    Trace StructFieldData (Sum TupleFieldDef RecordFieldDef) × StructKind :=
  match ast with
  | AstStructKind.tuple fl =>
    (fl.enum.foldl (fun tr p => tr.alloc (Sum.inl p.2) (lowered_tuple_field p.1 p.2)) trace,
     StructKind.tuple)
  | AstStructKind.record fl =>
    (fl.foldl (fun tr fd => tr.alloc (Sum.inr fd) (lowered_record_field fd)) trace,
     StructKind.record)
  | AstStructKind.unit => (trace, StructKind.unit)

/-- Embeds `VariantData::new`: lower a field list with an arena-only trace and wrap
the arena in the shape indicated by the returned tag. -/
def VariantData.new (flavor : AstStructKind) : VariantData :=
  let res := lower_struct Trace.new_for_arena flavor
  match res.2 with
  | StructKind.tuple => VariantData.tuple res.1.into_arena
  | StructKind.record => VariantData.record res.1.into_arena
  | StructKind.unit => VariantData.unit

/-- Embeds `VariantData::fields`: the field arena for Record/Tuple, the empty arena
for Unit. -/
def VariantData.fields : VariantData → List StructFieldData
  | VariantData.record fields => fields
  | VariantData.tuple fields => fields
  | VariantData.unit => []

/-- Embeds `VariantData::field`: linear scan for the first field with the given
name. -/
def VariantData.field (v : VariantData) (name : Name) : Option LocalStructFieldId :=
  v.fields.enum.findSome? (fun p => if p.2.name = name then some p.1 else none)

/-- Embeds `VariantData::kind`: which of the three shapes this instance is. -/
def VariantData.kind : VariantData → StructKind
  | VariantData.record _ => StructKind.record
  | VariantData.tuple _ => StructKind.tuple
  | VariantData.unit => StructKind.unit

/-- Embeds `StructData::struct_data_query`: resolve the definition name (or the
missing-name sentinel) and lower the field list. -/
def StructData.struct_data_query (src : AstStructDef) : StructData :=
  { name := (src.name.map Name.as_name).getD Name.missing,
    variant_data := VariantData.new src.kind }

/-- Embeds `StructData::union_data_query`: like the struct builder, but the shape is
a record list when one is syntactically present and Unit otherwise. -/
def StructData.union_data_query (src : AstUnionDef) : StructData :=
  { name := (src.name.map Name.as_name).getD Name.missing,
    variant_data :=
      VariantData.new ((src.record_field_def_list.map AstStructKind.record).getD
        AstStructKind.unit) }

/-- The semantic value built for one enum-variant node (the value thunk of
`lower_enum`). -/
def lowered_enum_variant (var : AstEnumVariant) : EnumVariantData :=
  { name := (var.name.map Name.as_name).getD Name.missing,
    variant_data := VariantData.new var.kind }

/-- Embeds `lower_enum`: walk the variant list in declaration order, allocating one
semantic variant per source variant through the trace. -/
def lower_enum (trace : Trace EnumVariantData AstEnumVariant) (ast : AstEnumDef) :
    Trace EnumVariantData AstEnumVariant :=
  (ast.variant_list.getD []).foldl (fun tr var => tr.alloc var (lowered_enum_variant var)) trace

/-- Embeds `EnumData::enum_data_query`: resolve the enum name and collect the
variants with an arena-only trace. -/
def EnumData.enum_data_query (src : AstEnumDef) : EnumData :=
  { name := (src.name.map Name.as_name).getD Name.missing,
    variants := (lower_enum Trace.new_for_arena src).into_arena }

/-- Embeds `EnumData::variant`: linear scan for the first variant with the given
name. -/
def EnumData.variant (e : EnumData) (name : Name) : Option LocalEnumVariantId :=
  (e.variants.enum.find? (fun p => p.2.name = name)).map (fun p => p.1)

/-- Embeds `HasChildSource for EnumId`: rebuild the variant walk with a map-only
trace and return the index-to-syntax-node map. -/
def enum_child_source (src : AstEnumDef) : List AstEnumVariant :=
  (lower_enum Trace.new_for_map src).into_map

/-- Embeds `HasChildSource for VariantId`: rebuild the field walk with a map-only
trace and return the index-to-syntax-node map. -/
def variant_child_source (src : AstStructKind) :
    List (Sum TupleFieldDef RecordFieldDef) :=
  (lower_struct Trace.new_for_map src).1.into_map

/-! Type model consumed by the expression validator (expr.rs). The types
`Ty`, `TypeCtor`, `AdtId`, `VariantId` and the inference result live outside
src/; they are modelled from the spec's consumed-interface description. -/

/-- Modelled from the spec: a definition id for an algebraic data type
(`hir_def::AdtId` is not under src/). -/
inductive AdtId where
  | structId (n : Nat)
  | unionId (n : Nat)
  | enumId (n : Nat)
deriving DecidableEq, Repr

/-- Modelled from the spec: the id of a struct, union, or enum variant
definition (`hir_def::VariantId` is not under src/). -/
inductive VariantId where
  | enumVariantId (parent : Nat) (local_id : LocalEnumVariantId)
  | structId (n : Nat)
  | unionId (n : Nat)
deriving DecidableEq, Repr

/-- Reference mutability, part of the reference type constructor. -/
inductive Mutability where
  | shared
  | mut
deriving DecidableEq, Repr

/-- Modelled from the spec: type constructors of inferred types
(`ra_hir_ty::TypeCtor` is not under src/). Only the constructors the
validator inspects are distinguished; all others are a numbered case. -/
inductive TypeCtor where
  | bool
  | ref (m : Mutability)
  | adt (a : AdtId)
  | other (n : Nat)
deriving DecidableEq, Repr

/-- Modelled from the spec: an inferred type (`ra_hir_ty::Ty` is not under
src/): either an application of a constructor to parameters, or an opaque
non-application type (numbered). -/
inductive Ty where
  | apply (ctor : TypeCtor) (parameters : List Ty)
  | opaqueTy (n : Nat)

mutual

def Ty.decEq : (a b : Ty) → Decidable (a = b)
  | Ty.apply c1 p1, Ty.apply c2 p2 =>
    match instDecidableEqTypeCtor c1 c2, Ty.decEqList p1 p2 with
    | isTrue h1, isTrue h2 => isTrue (by rw [h1, h2])
    | isFalse h1, _ => isFalse (fun h => by cases h; exact h1 rfl)
    | _, isFalse h2 => isFalse (fun h => by cases h; exact h2 rfl)
  | Ty.apply _ _, Ty.opaqueTy _ => isFalse nofun
  | Ty.opaqueTy _, Ty.apply _ _ => isFalse nofun
  | Ty.opaqueTy n, Ty.opaqueTy m =>
    match Nat.decEq n m with
    | isTrue h => isTrue (by rw [h])
    | isFalse h => isFalse (fun hh => by cases hh; exact h rfl)

def Ty.decEqList : (a b : List Ty) → Decidable (a = b)
  | [], [] => isTrue rfl
  | [], _ :: _ => isFalse nofun
  | _ :: _, [] => isFalse nofun
  | a :: as, b :: bs =>
    match Ty.decEq a b, Ty.decEqList as bs with
    | isTrue h1, isTrue h2 => isTrue (by rw [h1, h2])
    | isFalse h1, _ => isFalse (fun h => by cases h; exact h1 rfl)
    | _, isFalse h2 => isFalse (fun h => by cases h; exact h2 rfl)

end

instance : DecidableEq Ty := Ty.decEq

/-- Modelled from the spec: `Ty::as_reference` removes one layer of reference
indirection, returning the referent type and the mutability. -/
def Ty.as_reference : Ty → Option (Ty × Mutability)
  | Ty.apply (TypeCtor.ref m) parameters =>
    match parameters with
    | [t] => some (t, m)
    | _ => none
  | _ => none

/-- A recorded type mismatch: expected vs. actual. -/
structure TypeMismatch where
  expected : Ty
  actual : Ty

/-- An expression id in a function body (arena index). -/
abbrev ExprId := Nat

/-- A pattern id in a function body (arena index). -/
abbrev PatId := Nat

/-- Modelled from the spec: the slice of a type-inference result consumed by
the validator (`InferenceResult` is not under src/): per-expression and
per-pattern inferred types, resolved variants for record literals and record
patterns, and a single recorded type mismatch per expression. -/
structure InferenceResult where
  type_of_expr : ExprId → Option Ty
  type_of_pat : PatId → Option Ty
  variant_resolution_for_expr : ExprId → Option VariantId
  variant_resolution_for_pat : PatId → Option VariantId
  type_mismatch_for_expr : ExprId → Option TypeMismatch

/-- One explicitly written field of a record literal (`RecordLitField`). -/
structure RecordLitField where
  name : Name
deriving DecidableEq, Repr

/-- One arm of a match expression (`MatchArm`); only the pattern is consumed
by the validator. -/
structure MatchArm where
  pat : PatId
deriving DecidableEq, Repr

/-- The body expressions the validator inspects (`hir_def::expr::Expr`):
record literals, matches, blocks; everything else is a numbered case. -/
inductive Expr where
  | recordLit (fields : List RecordLitField) (spread : Option ExprId)
  | matchExpr (scrut : ExprId) (arms : List MatchArm)
  | block (tail : Option ExprId)
  | other (n : Nat)
deriving DecidableEq, Repr

/-- One field binding of a record pattern (`RecordFieldPat`). -/
structure RecordFieldPat where
  name : Name
deriving DecidableEq, Repr

/-- The body patterns the validator inspects (`hir_def::expr::Pat`): record
patterns; everything else is a numbered case. -/
inductive Pat where
  | record (args : List RecordFieldPat)
  | other (n : Nat)
deriving DecidableEq, Repr

/-- Modelled from the spec: the database view consumed by the validator —
`utils::variant_data` resolves a variant id to its shape data. -/
structure HirDatabase where
  variant_data : VariantId → VariantData

/-- The concrete-syntax record-literal node: an optional field-list child
node (abstracted as a numeric pointer). -/
structure AstRecordLit where
  record_field_list : Option Nat
deriving DecidableEq, Repr

/-- The concrete-syntax expression nodes the validator anchors diagnostics
at; child nodes are abstracted as numeric pointers. -/
inductive AstExpr where
  | recordLit (lit : AstRecordLit)
  | matchExpr (scrut : Option Nat) (match_arm_list : Option Nat)
  | other (n : Nat)
deriving DecidableEq, Repr

/-- Modelled from the spec: a resolved source pointer for an expression —
the owning file plus either a normal concrete-syntax node (left) or a
macro-expansion pointer (right, numbered). -/
structure ExprSourcePtr where
  file_id : Nat
  value : Sum AstExpr Nat
deriving DecidableEq, Repr

/-- Modelled from the spec: the on-demand reverse map from expression ids to
source pointers; `none` models a source-map miss. -/
structure BodySourceMap where
  expr_syntax : ExprId → Option ExprSourcePtr

/-- A lowered function body: the expression arena and the id of the root
body expression. -/
structure Body where
  exprs : List Expr
  body_expr : ExprId

/-- The structured diagnostic records pushed to the sink. -/
inductive Diagnostic where
  | missingFields (file : Nat) (field_list : Nat) (missed_fields : List Name)
  | missingMatchArms (file : Nat) (matchExprPtr : Nat) (arms : Nat)
  | missingOkInTailExpr (file : Nat) (expr : AstExpr)
deriving DecidableEq, Repr

/-- The default field value used to model in-range arena indexing. -/
def dfltField : StructFieldData :=
  { name := Name.missing, type_ref := TypeRef.error, visibility := RawVisibility.privateVis }

/-- Embeds `record_literal_missing_fields`: for a record literal, resolve the
variant (skipping unresolved and union variants), collect the explicitly
specified field names, and return the declaration-ordered list of missed
field ids together with whether the literal is exhaustive (no spread). -/
def record_literal_missing_fields (db : HirDatabase) (infer : InferenceResult)
    (id : ExprId) (expr : Expr) :
    Option (VariantId × List LocalStructFieldId × Bool) :=
  match expr with
  | Expr.recordLit fields spread =>
    let exhausitve := spread.isNone
    match infer.variant_resolution_for_expr id with
    | none => none
    | some variant_def =>
      match variant_def with
      | VariantId.unionId _ => none
      | _ =>
        let variant_data := db.variant_data variant_def
        let specified_fields := fields.map (fun f => f.name)
        let missed_fields := variant_data.fields.enum.filterMap
          (fun p => if specified_fields.contains p.2.name then none else some p.1)
        if missed_fields.isEmpty then none
        else some (variant_def, missed_fields, exhausitve)
  | _ => none

/-- Embeds `record_pattern_missing_fields`: the pattern-side analogue, without the
exhaustive/spread distinction. -/
def record_pattern_missing_fields (db : HirDatabase) (infer : InferenceResult)
    (id : PatId) (pat : Pat) :
    Option (VariantId × List LocalStructFieldId) :=
  match pat with
  | Pat.record args =>
    match infer.variant_resolution_for_pat id with
    | none => none
    | some variant_def =>
      match variant_def with
      | VariantId.unionId _ => none
      | _ =>
        let variant_data := db.variant_data variant_def
        let specified_fields := args.map (fun f => f.name)
        let missed_fields := variant_data.fields.enum.filterMap
          (fun p => if specified_fields.contains p.2.name then none else some p.1)
        if missed_fields.isEmpty then none
        else some (variant_def, missed_fields)
  | _ => none

/-- The record-literal branch of `ExprValidator::validate_body` for one body
expression: push a MissingFields diagnostic when the missing-fields check
fires with the exhaustive flag set and the source map yields a concrete
record-literal node with a field list. -/
def check_record_literal (db : HirDatabase) (infer : InferenceResult)
    (source_map : BodySourceMap) (id : ExprId) (expr : Expr) : List Diagnostic :=
  match record_literal_missing_fields db infer id expr with
  | some (variant_def, missed_fields, true) =>
    match source_map.expr_syntax id with
    | some source_ptr =>
      match source_ptr.value with
      | Sum.inl (AstExpr.recordLit record_lit) =>
        match record_lit.record_field_list with
        | some field_list =>
          let variant_data := db.variant_data variant_def
          let missed_names :=
            missed_fields.map (fun idx => (variant_data.fields.getD idx dfltField).name)
          [Diagnostic.missingFields source_ptr.file_id field_list missed_names]
        | none => []
      | _ => []
    | none => []
  | _ => []

/-- A row entry of the pattern matrix: a body pattern id or the synthetic
wildcard. -/
inductive PatIdOrWild where
  | patId (p : PatId)
  | wild
deriving DecidableEq, Repr

/-- A pattern-stack row of the usefulness matrix. -/
abbrev PatStack := List PatIdOrWild

/-- Embeds `PatStack::from_pattern`: a one-pattern row. -/
def PatStack.from_pattern (p : PatId) : PatStack := [PatIdOrWild.patId p]

/-- Embeds `PatStack::from_wild`: the synthetic wildcard row. -/
def PatStack.from_wild : PatStack := [PatIdOrWild.wild]

/-- The pattern matrix accumulated by the exhaustiveness check. -/
abbrev Matrix := List PatStack

/-- Embeds `Matrix::empty`. -/
def Matrix.empty : Matrix := []

/-- Modelled from the spec: `Matrix::push` appends one row per included arm
pattern (the oracle-internal or-pattern expansion is outside src/). -/
def Matrix.push (m : Matrix) (v : PatStack) : Matrix := m ++ [v]

/-- The verdict of the pattern-usefulness oracle. -/
inductive Usefulness where
  | useful
  | notUseful
deriving DecidableEq, Repr

/-- Oracle failure: unimplemented pattern shapes or malformed arms. -/
inductive MatchCheckErr where
  | notImplemented
  | malformedMatchArm
deriving DecidableEq, Repr

/-- Embeds `MatchCheckCtx`: the context handed to the usefulness oracle. -/
structure MatchCheckCtx where
  body : Body
  infer : InferenceResult

/-- Modelled from the spec: the external pattern-usefulness oracle
(`_match::is_useful` is not under src/), consumed as a black box. -/
abbrev UsefulnessOracle :=
  MatchCheckCtx → Matrix → PatStack → Except MatchCheckErr Usefulness

/-- The arm-inclusion test of the matrix construction: inference recorded a
type for the arm's pattern, and that type equals the scrutinee type exactly
or after removing one layer of reference indirection. -/
def arm_type_matches (infer : InferenceResult) (scrut_ty : Ty) (arm : MatchArm) : Bool :=
  match infer.type_of_pat arm.pat with
  | some pat_ty =>
    decide (pat_ty = scrut_ty) ||
      (scrut_ty.as_reference.map (fun q => decide (q.1 = pat_ty))).getD false
  | none => false

/-- The matrix-building loop of `ExprValidator::validate_match`: fold the
arms, pushing a one-pattern row for each arm whose pattern type is recorded
and matches the scrutinee type (exactly or through one auto-deref). -/
def match_check_matrix (infer : InferenceResult) (scrut_ty : Ty)
    (arms : List MatchArm) : Matrix :=
  arms.foldl (fun seen arm =>
    match infer.type_of_pat arm.pat with
    | some pat_ty =>
      if decide (pat_ty = scrut_ty) ||
          (scrut_ty.as_reference.map (fun q => decide (q.1 = pat_ty))).getD false
      then Matrix.push seen (PatStack.from_pattern arm.pat)
      else seen
    | none => seen) Matrix.empty

/-- Embeds `ExprValidator::validate_match`: skip when the scrutinee type is
unknown; build the filtered matrix; ask the oracle whether a wildcard row is
useful; push MissingMatchArms only on a Useful verdict, when the source map
yields a concrete match node with both children. -/
def validate_match (is_useful : UsefulnessOracle) (infer : InferenceResult)
    (body : Body) (source_map : BodySourceMap)
    (id : ExprId) (scrut : ExprId) (arms : List MatchArm) : List Diagnostic :=
  match infer.type_of_expr scrut with
  | none => []
  | some scrut_ty =>
    match is_useful ⟨body, infer⟩ (match_check_matrix infer scrut_ty arms)
        PatStack.from_wild with
    | Except.ok Usefulness.useful =>
      match source_map.expr_syntax id with
      | some source_ptr =>
        match source_ptr.value with
        | Sum.inl (AstExpr.matchExpr (some me) (some al)) =>
          [Diagnostic.missingMatchArms source_ptr.file_id me al]
        | _ => []
      | none => []
    | Except.ok Usefulness.notUseful => []
    | Except.error _ => []

/-- Modelled from the spec: the resolver interface — resolve a dotted
well-known path to an enum definition id within the function's scope. -/
structure Resolver where
  resolve_known_enum : List String → Option Nat

/-- The dotted path of the standard two-variant outcome type,
`std::result::Result`. -/
def std_result_path : List String := ["std", "result", "Result"]

/-- Embeds `ExprValidator::validate_results_in_tail_expr`: report MissingOkInTailExpr
when the whole-block mismatch's expected type applies the resolved
`std::result::Result` constructor to exactly two parameters and the actual
type equals the first parameter. -/
def validate_results_in_tail_expr (resolver : Resolver) (infer : InferenceResult)
    (source_map : BodySourceMap) (body_id : ExprId) (id : ExprId) : List Diagnostic :=
  match infer.type_mismatch_for_expr body_id with
  | none => []
  | some mismatch =>
    match resolver.resolve_known_enum std_result_path with
    | none => []
    | some std_result_enum =>
      match mismatch.expected with
      | Ty.apply ctor parameters =>
        if ctor = TypeCtor.adt (AdtId.enumId std_result_enum) then
          if parameters.length = 2 ∧ parameters[0]? = some mismatch.actual then
            match source_map.expr_syntax id with
            | some source_ptr =>
              match source_ptr.value with
              | Sum.inl e => [Diagnostic.missingOkInTailExpr source_ptr.file_id e]
              | Sum.inr _ => []
            | none => []
          else []
        else []
      | _ => []

/-- Embeds `ExprValidator::validate_body`: walk every body expression, running the
record-literal check and, on match expressions, the exhaustiveness check;
finally run the tail-expression check when the body expression is a block
with a tail. -/
def validate_body (is_useful : UsefulnessOracle) (db : HirDatabase)
    (resolver : Resolver) (infer : InferenceResult) (body : Body)
    (source_map : BodySourceMap) : List Diagnostic :=
  (body.exprs.enum.foldl (fun acc p =>
    acc ++ check_record_literal db infer source_map p.1 p.2 ++
      (match p.2 with
       | Expr.matchExpr scrut arms =>
         validate_match is_useful infer body source_map p.1 scrut arms
       | _ => [])) []) ++
  (match body.exprs.getD body.body_expr (Expr.other 0) with
   | Expr.block (some t) => validate_results_in_tail_expr resolver infer source_map body.body_expr t
   | _ => [])

/-! Spec-side helper definitions used to state the claims. -/

/-- Whether a variant id denotes a union variant. -/
def VariantId.is_union : VariantId → Bool
  | VariantId.unionId _ => true
  | _ => false

/-- The declaration-ordered missed-field computation shared by the literal
and pattern checks: declared fields whose name is not among the specified
names. -/
def missed_field_ids (db : HirDatabase) (v : VariantId) (specified : List Name) :
    List LocalStructFieldId :=
  (db.variant_data v).fields.enum.filterMap
    (fun p => if specified.contains p.2.name then none else some p.1)

/-- The semantic field values a field-list shape lowers to, one per source
field in declaration order. -/
def struct_field_values : AstStructKind → List StructFieldData
  | AstStructKind.tuple fl => fl.enum.map (fun p => lowered_tuple_field p.1 p.2)
  | AstStructKind.record fl => fl.map lowered_record_field
  | AstStructKind.unit => []

/-- The originating syntax nodes a field-list shape records, one per source
field in declaration order. -/
def struct_field_nodes : AstStructKind → List (Sum TupleFieldDef RecordFieldDef)
  | AstStructKind.tuple fl => fl.enum.map (fun p => Sum.inl p.2)
  | AstStructKind.record fl => fl.map Sum.inr
  | AstStructKind.unit => []

/-- The shape tag a field-list shape lowers to. -/
def struct_kind_tag : AstStructKind → StructKind
  | AstStructKind.tuple _ => StructKind.tuple
  | AstStructKind.record _ => StructKind.record
  | AstStructKind.unit => StructKind.unit

/-- The number of source fields in a field-list shape. -/
def ast_field_count : AstStructKind → Nat
  | AstStructKind.tuple fl => fl.length
  | AstStructKind.record fl => fl.length
  | AstStructKind.unit => 0

/-- The semantic field value produced from one recorded syntax node at a
given arena index (tuple nodes use the index for the synthesized name). -/
def field_data_of_node : Sum TupleFieldDef RecordFieldDef → Nat → StructFieldData
  | Sum.inl fd, i => lowered_tuple_field i fd
  | Sum.inr fd, _ => lowered_record_field fd

/-! Concrete fixtures: a two-field struct `Point { x, y }`, inference
results, source maps, an oracle and a resolver, used to exercise the
validator on closed inputs. -/

/-- A record shape with fields `x` and `y`. -/
def wPoint : VariantData := VariantData.record
  [⟨Name.text "x", TypeRef.error, RawVisibility.privateVis⟩,
   ⟨Name.text "y", TypeRef.error, RawVisibility.privateVis⟩]

/-- A database resolving every variant id to the `Point` shape. -/
def wDb : HirDatabase := ⟨fun _ => wPoint⟩

/-- Inference resolving every record literal to struct variant 0. -/
def wInfer : InferenceResult :=
  ⟨fun _ => none, fun _ => none, fun _ => some (VariantId.structId 0),
   fun _ => none, fun _ => none⟩

/-- Inference resolving every record literal to union variant 0. -/
def wInferUnion : InferenceResult :=
  ⟨fun _ => none, fun _ => none, fun _ => some (VariantId.unionId 0),
   fun _ => none, fun _ => none⟩

/-- Inference resolving every record pattern to struct variant 0. -/
def wInferPat : InferenceResult :=
  ⟨fun _ => none, fun _ => none, fun _ => none,
   fun _ => some (VariantId.structId 0), fun _ => none⟩

/-- A source map sending every expression to a record-literal node with a
field list, in file 3. -/
def wSm : BodySourceMap := ⟨fun _ => some ⟨3, Sum.inl (AstExpr.recordLit ⟨some 9⟩)⟩⟩

/-- The boolean type. -/
def wTyBool : Ty := Ty.apply TypeCtor.bool []

/-- Inference giving every expression and pattern the boolean type. -/
def wInferBool : InferenceResult :=
  ⟨fun _ => some wTyBool, fun _ => some wTyBool, fun _ => none,
   fun _ => none, fun _ => none⟩

/-- An empty function body. -/
def wBody : Body := ⟨[], 0⟩

/-- A source map sending every expression to a match node with both
children, in file 3. -/
def wSmMatch : BodySourceMap :=
  ⟨fun _ => some ⟨3, Sum.inl (AstExpr.matchExpr (some 1) (some 2))⟩⟩

/-- An oracle that always deems the candidate row useful. -/
def wOracle : UsefulnessOracle := fun _ _ _ => Except.ok Usefulness.useful

/-- A resolver mapping the standard Result path to enum id 42. -/
def wResolver : Resolver :=
  ⟨fun p => if p = std_result_path then some 42 else none⟩

/-- An opaque success-parameter type. -/
def wTyI : Ty := Ty.opaqueTy 3

/-- An opaque error-parameter type. -/
def wTyE : Ty := Ty.opaqueTy 4

/-- Inference recording, for expression 0, a mismatch between expected
`Result<wTyI, wTyE>` and actual `wTyI`. -/
def wInferMismatch : InferenceResult :=
  ⟨fun _ => none, fun _ => none, fun _ => none, fun _ => none,
   fun e => if e = 0 then
      some ⟨Ty.apply (TypeCtor.adt (AdtId.enumId 42)) [wTyI, wTyE], wTyI⟩
    else none⟩

/-- A source map sending every expression to a plain node, in file 3. -/
def wSmTail : BodySourceMap := ⟨fun _ => some ⟨3, Sum.inl (AstExpr.other 11)⟩⟩

/-! Lemmas about the source-correlated allocator and the lowering walks. -/

theorem trace_foldl_alloc {α T V : Type} (l : List α) (nodef : α → V) (valf : α → T)
    (ar : Option (List T)) (mp : Option (List V)) :
    l.foldl (fun (tr : Trace T V) a => tr.alloc (nodef a) (valf a)) ⟨ar, mp⟩ =
      ⟨ar.map (fun x => x ++ l.map valf), mp.map (fun x => x ++ l.map nodef)⟩ := by
  induction l generalizing ar mp with
  | nil => cases ar <;> cases mp <;> simp
  | cons a as ih =>
    simp only [List.foldl_cons]
    rw [show Trace.alloc ⟨ar, mp⟩ (nodef a) (valf a) =
        (⟨ar.map (fun x => x ++ [valf a]), mp.map (fun x => x ++ [nodef a])⟩ : Trace T V)
      from rfl]
    rw [ih]
    cases ar <;> cases mp <;> simp

theorem lower_struct_fst (k : AstStructKind) (ar : Option (List StructFieldData))
    (mp : Option (List (Sum TupleFieldDef RecordFieldDef))) :
    (lower_struct ⟨ar, mp⟩ k).1 =
      ⟨ar.map (fun x => x ++ struct_field_values k),
       mp.map (fun x => x ++ struct_field_nodes k)⟩ := by
  cases k with
  | tuple fl =>
    simp only [lower_struct, struct_field_values, struct_field_nodes]
    exact congrArg Prod.fst
      (congrArg (fun t => (t, StructKind.tuple))
        (trace_foldl_alloc fl.enum (fun p => Sum.inl p.2)
          (fun p => lowered_tuple_field p.1 p.2) ar mp))
  | record fl =>
    simp only [lower_struct, struct_field_values, struct_field_nodes]
    exact congrArg Prod.fst
      (congrArg (fun t => (t, StructKind.record))
        (trace_foldl_alloc fl Sum.inr lowered_record_field ar mp))
  | unit =>
    simp only [lower_struct, struct_field_values, struct_field_nodes]
    cases ar <;> cases mp <;> simp

theorem lower_struct_snd (k : AstStructKind)
    (tr : Trace StructFieldData (Sum TupleFieldDef RecordFieldDef)) :
    (lower_struct tr k).2 = struct_kind_tag k := by
  cases k <;> rfl

theorem lower_enum_closed (vs : List AstEnumVariant)
    (ar : Option (List EnumVariantData)) (mp : Option (List AstEnumVariant)) :
    vs.foldl (fun (tr : Trace EnumVariantData AstEnumVariant) var =>
        tr.alloc var (lowered_enum_variant var)) ⟨ar, mp⟩ =
      ⟨ar.map (fun x => x ++ vs.map lowered_enum_variant), mp.map (fun x => x ++ vs)⟩ := by
  induction vs generalizing ar mp with
  | nil => cases ar <;> cases mp <;> simp
  | cons a as ih =>
    simp only [List.foldl_cons]
    rw [show Trace.alloc ⟨ar, mp⟩ a (lowered_enum_variant a) =
        (⟨ar.map (fun x => x ++ [lowered_enum_variant a]), mp.map (fun x => x ++ [a])⟩ :
          Trace EnumVariantData AstEnumVariant)
      from rfl]
    rw [ih]
    cases ar <;> cases mp <;> simp

theorem variantData_new_fields (k : AstStructKind) :
    (VariantData.new k).fields = struct_field_values k := by
  have h1 := lower_struct_fst k (some []) none
  have h2 := lower_struct_snd k Trace.new_for_arena
  cases k with
  | tuple fl =>
    simp [VariantData.new, Trace.new_for_arena, struct_kind_tag] at h1 h2 ⊢
    rw [h2]
    simp [h1, Trace.into_arena, VariantData.fields]
  | record fl =>
    simp [VariantData.new, Trace.new_for_arena, struct_kind_tag] at h1 h2 ⊢
    rw [h2]
    simp [h1, Trace.into_arena, VariantData.fields]
  | unit =>
    simp [VariantData.new, Trace.new_for_arena, struct_kind_tag] at h1 h2 ⊢
    rw [h2]
    simp [VariantData.fields, struct_field_values]

theorem variant_child_source_eq (k : AstStructKind) :
    variant_child_source k = struct_field_nodes k := by
  have h1 := lower_struct_fst k none (some [])
  simp only [variant_child_source, Trace.new_for_map]
  rw [h1]
  simp [Trace.into_map]

theorem enum_variants_eq (e : AstEnumDef) :
    (EnumData.enum_data_query e).variants =
      (e.variant_list.getD []).map lowered_enum_variant := by
  simp only [EnumData.enum_data_query, lower_enum, Trace.new_for_arena]
  rw [lower_enum_closed]
  simp [Trace.into_arena]

theorem enum_child_source_eq (e : AstEnumDef) :
    enum_child_source e = e.variant_list.getD [] := by
  simp only [enum_child_source, lower_enum, Trace.new_for_map]
  rw [lower_enum_closed]
  simp [Trace.into_map]

/-! Lemmas about the missing-fields checks. -/

theorem filterMap_if_eq_filter_map {α β : Type} (l : List α) (c : α → Bool) (f : α → β) :
    l.filterMap (fun x => if c x then none else some (f x)) =
      (l.filter (fun x => !c x)).map f := by
  induction l with
  | nil => rfl
  | cons a as ih => by_cases h : c a <;> simp [h, ih]

theorem rlmf_eq (db : HirDatabase) (infer : InferenceResult) (id : ExprId)
    (fields : List RecordLitField) (spread : Option ExprId) :
    record_literal_missing_fields db infer id (Expr.recordLit fields spread) =
      match infer.variant_resolution_for_expr id with
      | none => none
      | some variant_def =>
        if variant_def.is_union then none
        else
          let missed := missed_field_ids db variant_def (fields.map (fun f => f.name))
          if missed.isEmpty then none
          else some (variant_def, missed, spread.isNone) := by
  cases hv : infer.variant_resolution_for_expr id with
  | none => simp [record_literal_missing_fields, hv]
  | some v =>
    cases v <;>
      simp [record_literal_missing_fields, hv, VariantId.is_union, missed_field_ids]

theorem rpmf_eq (db : HirDatabase) (infer : InferenceResult) (id : PatId)
    (args : List RecordFieldPat) :
    record_pattern_missing_fields db infer id (Pat.record args) =
      match infer.variant_resolution_for_pat id with
      | none => none
      | some variant_def =>
        if variant_def.is_union then none
        else
          let missed := missed_field_ids db variant_def (args.map (fun f => f.name))
          if missed.isEmpty then none
          else some (variant_def, missed) := by
  cases hv : infer.variant_resolution_for_pat id with
  | none => simp [record_pattern_missing_fields, hv]
  | some v =>
    cases v <;>
      simp [record_pattern_missing_fields, hv, VariantId.is_union, missed_field_ids]

theorem check_record_literal_spread_some (db : HirDatabase) (infer : InferenceResult)
    (sm : BodySourceMap) (id : ExprId) (fields : List RecordLitField) (s : ExprId) :
    check_record_literal db infer sm id (Expr.recordLit fields (some s)) = [] := by
  unfold check_record_literal
  rw [rlmf_eq]
  cases infer.variant_resolution_for_expr id with
  | none => rfl
  | some v =>
    by_cases hu : v.is_union
    · simp only [hu, if_true]
    · simp only [hu, Bool.false_eq_true, if_false]
      by_cases hm :
          (missed_field_ids db v (fields.map (fun f => f.name))).isEmpty
      · simp only [hm, if_true]
      · simp only [hm, Bool.false_eq_true, if_false, Option.isNone_some]

/-! Lemmas about the match-exhaustiveness matrix. -/

theorem match_step_eq (infer : InferenceResult) (scrut_ty : Ty) (acc : Matrix)
    (arm : MatchArm) :
    (match infer.type_of_pat arm.pat with
     | some pat_ty =>
       if decide (pat_ty = scrut_ty) ||
           (scrut_ty.as_reference.map (fun q => decide (q.1 = pat_ty))).getD false
       then Matrix.push acc (PatStack.from_pattern arm.pat)
       else acc
     | none => acc) =
      if arm_type_matches infer scrut_ty arm
      then Matrix.push acc (PatStack.from_pattern arm.pat)
      else acc := by
  unfold arm_type_matches
  cases infer.type_of_pat arm.pat <;> simp

theorem match_check_matrix_fold (infer : InferenceResult) (scrut_ty : Ty)
    (arms : List MatchArm) (acc : Matrix) :
    arms.foldl (fun seen arm =>
      match infer.type_of_pat arm.pat with
      | some pat_ty =>
        if decide (pat_ty = scrut_ty) ||
            (scrut_ty.as_reference.map (fun q => decide (q.1 = pat_ty))).getD false
        then Matrix.push seen (PatStack.from_pattern arm.pat)
        else seen
      | none => seen) acc =
      acc ++ (arms.filter (arm_type_matches infer scrut_ty)).map
        (fun arm => PatStack.from_pattern arm.pat) := by
  induction arms generalizing acc with
  | nil => simp
  | cons a as ih =>
    rw [List.foldl_cons, match_step_eq infer scrut_ty acc a, List.filter_cons]
    by_cases h : arm_type_matches infer scrut_ty a
    · rw [if_pos h, if_pos h, ih]
      simp [Matrix.push]
    · rw [if_neg h, if_neg h, ih]

/-! Claim theorems. -/

/-- Claim C1: for every record-literal expression, the validator reports a
MissingFields diagnostic only when the literal has no spread marker; if a
spread marker is present, no MissingFields diagnostic is emitted even though
fields are missing. -/
theorem c1_missing_fields_only_without_spread (db : HirDatabase)
    (infer : InferenceResult) (sm : BodySourceMap) (id : ExprId)
    (fields : List RecordLitField) (spread : Option ExprId) (d : Diagnostic)
    (hd : d ∈ check_record_literal db infer sm id (Expr.recordLit fields spread)) :
    spread = none := by
  cases spread with
  | none => rfl
  | some s =>
    rw [check_record_literal_spread_some] at hd
    simp at hd

/-- Witness for C1: a literal `Point { x: 1 }` with no spread does produce a
MissingFields diagnostic for `y`. -/
theorem c1_witness :
    Diagnostic.missingFields 3 9 [Name.text "y"] ∈
      check_record_literal wDb wInfer wSm 0 (Expr.recordLit [⟨Name.text "x"⟩] none) ∧
    (none : Option ExprId) = none :=
  ⟨by decide,
   c1_missing_fields_only_without_spread wDb wInfer wSm 0 [⟨Name.text "x"⟩] none
     (Diagnostic.missingFields 3 9 [Name.text "y"]) (by decide)⟩

/-- Claim C2: a record literal whose variant is a union, or whose variant
cannot be resolved, yields no missing-fields result and no MissingFields
diagnostic, regardless of which fields are omitted. -/
theorem c2_union_or_unresolved_never_reported (db : HirDatabase)
    (infer : InferenceResult) (sm : BodySourceMap) (id : ExprId)
    (fields : List RecordLitField) (spread : Option ExprId)
    (h : infer.variant_resolution_for_expr id = none ∨
      ∃ u, infer.variant_resolution_for_expr id = some (VariantId.unionId u)) :
    record_literal_missing_fields db infer id (Expr.recordLit fields spread) = none ∧
    check_record_literal db infer sm id (Expr.recordLit fields spread) = [] := by
  have h1 : record_literal_missing_fields db infer id (Expr.recordLit fields spread)
      = none := by
    rw [rlmf_eq]
    rcases h with h | ⟨u, h⟩
    · rw [h]
    · rw [h]
      simp [VariantId.is_union]
  refine ⟨h1, ?_⟩
  unfold check_record_literal
  rw [h1]

/-- Witness for C2: a union literal omitting every field is skipped. -/
theorem c2_witness :
    (wInferUnion.variant_resolution_for_expr 0 = none ∨
      ∃ u, wInferUnion.variant_resolution_for_expr 0 = some (VariantId.unionId u)) ∧
    (record_literal_missing_fields wDb wInferUnion 0 (Expr.recordLit [] none) = none ∧
      check_record_literal wDb wInferUnion wSm 0 (Expr.recordLit [] none) = []) :=
  ⟨Or.inr ⟨0, rfl⟩,
   c2_union_or_unresolved_never_reported wDb wInferUnion wSm 0 [] none
     (Or.inr ⟨0, rfl⟩)⟩

/-- Claim C4: the exhaustiveness matrix contains one row per arm, kept if
and only if inference recorded a type for the arm's pattern that equals the
scrutinee type exactly or after removing one layer of reference indirection;
other arms are dropped without aborting the check. -/
theorem c4_matrix_rows_are_type_filtered (infer : InferenceResult)
    (scrut_ty : Ty) (arms : List MatchArm) :
    match_check_matrix infer scrut_ty arms =
      (arms.filter (arm_type_matches infer scrut_ty)).map
        (fun arm => PatStack.from_pattern arm.pat) := by
  unfold match_check_matrix
  rw [match_check_matrix_fold]
  rfl

/-- Claim C8: the struct, union, and enum builders always return a value; a
missing definition, variant, or field name becomes the missing-name sentinel
(distinguishable from any real identifier), an omitted field type becomes
the error type reference, and an absent field list yields the Unit shape. -/
theorem c8_builders_degrade_never_fail :
    (∀ k, (StructData.struct_data_query ⟨none, k⟩).name = Name.missing) ∧
    (∀ fl, (StructData.union_data_query ⟨none, fl⟩).name = Name.missing) ∧
    (∀ nm, (StructData.union_data_query ⟨nm, none⟩).variant_data = VariantData.unit) ∧
    (∀ vl, (EnumData.enum_data_query ⟨none, vl⟩).name = Name.missing) ∧
    (∀ k, (lowered_enum_variant ⟨none, k⟩).name = Name.missing) ∧
    (∀ t v, (lowered_record_field ⟨none, t, v⟩).name = Name.missing) ∧
    (∀ nm v, (lowered_record_field ⟨nm, none, v⟩).type_ref = TypeRef.error) ∧
    (∀ i v, (lowered_tuple_field i ⟨none, v⟩).type_ref = TypeRef.error) ∧
    VariantData.new AstStructKind.unit = VariantData.unit ∧
    (∀ s, Name.text s ≠ Name.missing) ∧
    (∀ i, Name.tupleField i ≠ Name.missing) := by
  exact ⟨fun k => rfl, fun fl => rfl, fun nm => rfl, fun vl => rfl, fun k => rfl,
    fun t v => rfl, fun nm v => rfl, fun i v => rfl, rfl,
    fun s h => Name.noConfusion h, fun i h => Name.noConfusion h⟩

/-- Claim C9: `VariantData::fields` on a Unit variant returns the empty
arena rather than failing, and `field` on a Unit variant returns none for
every name. -/
theorem c9_unit_variant_has_no_fields :
    VariantData.unit.fields = [] ∧ ∀ nm : Name, VariantData.unit.field nm = none :=
  ⟨rfl, fun _ => rfl⟩

theorem missed_field_ids_filter (db : HirDatabase) (v : VariantId) (ns : List Name) :
    missed_field_ids db v ns =
      ((db.variant_data v).fields.enum.filter
        (fun p => !(ns.contains p.2.name))).map (fun p => p.1) := by
  simp only [missed_field_ids]
  rw [filterMap_if_eq_filter_map]

/-- Claim C3: for a resolved, non-union variant, the missing-field list is
exactly the declared fields whose name is not among the specified names, in
declaration (arena) order, and an empty list yields no result. -/
theorem c3_missing_list_declaration_order (db : HirDatabase)
    (infer : InferenceResult) (id : ExprId) (fields : List RecordLitField)
    (spread : Option ExprId) (v : VariantId)
    (hres : infer.variant_resolution_for_expr id = some v)
    (hnu : v.is_union = false) :
    record_literal_missing_fields db infer id (Expr.recordLit fields spread) =
      (if ((db.variant_data v).fields.enum.filter
            (fun p => !((fields.map (fun f => f.name)).contains p.2.name))).map
              (fun p => p.1) = []
       then none
       else some (v,
         ((db.variant_data v).fields.enum.filter
           (fun p => !((fields.map (fun f => f.name)).contains p.2.name))).map
             (fun p => p.1),
         spread.isNone)) := by
  rw [rlmf_eq, hres]
  simp only [hnu, Bool.false_eq_true, if_false, missed_field_ids_filter,
    List.isEmpty_iff]

/-- Witness for C3: `Point { x: 1 }` misses exactly field 1 (`y`). -/
theorem c3_witness :
    wInfer.variant_resolution_for_expr 0 = some (VariantId.structId 0) ∧
    (VariantId.structId 0).is_union = false ∧
    record_literal_missing_fields wDb wInfer 0
        (Expr.recordLit [⟨Name.text "x"⟩] none) =
      (if ((wDb.variant_data (VariantId.structId 0)).fields.enum.filter
            (fun p => !(([⟨Name.text "x"⟩] : List RecordLitField).map
              (fun f => f.name)).contains p.2.name)).map (fun p => p.1) = []
       then none
       else some (VariantId.structId 0,
         ((wDb.variant_data (VariantId.structId 0)).fields.enum.filter
           (fun p => !(([⟨Name.text "x"⟩] : List RecordLitField).map
             (fun f => f.name)).contains p.2.name)).map (fun p => p.1),
         (none : Option ExprId).isNone)) :=
  ⟨rfl, rfl,
   c3_missing_list_declaration_order wDb wInfer 0 [⟨Name.text "x"⟩] none
     (VariantId.structId 0) rfl rfl⟩

theorem missed_field_ids_nil_iff (db : HirDatabase) (v : VariantId) (ns : List Name) :
    missed_field_ids db v ns = [] ↔
      ∀ fd ∈ (db.variant_data v).fields, ns.contains fd.name := by
  rw [missed_field_ids_filter]
  rw [List.map_eq_nil_iff, List.filter_eq_nil_iff]
  constructor
  · intro h fd hfd
    rcases List.mem_iff_getElem?.mp hfd with ⟨i, hi⟩
    have hmem : (i, fd) ∈ (db.variant_data v).fields.enum :=
      List.mem_enum_iff_getElem?.mpr hi
    have := h (i, fd) hmem
    simpa using this
  · intro h p hp
    have hget : (db.variant_data v).fields[p.1]? = some p.2 :=
      List.mem_enum_iff_getElem?.mp hp
    have hmem : p.2 ∈ (db.variant_data v).fields :=
      List.mem_iff_getElem?.mpr ⟨p.1, hget⟩
    simpa using h p.2 hmem

/-- Claim C10: for a record pattern with a resolved, non-union variant, the
check never returns a value containing an empty list — it returns none
exactly when every declared field of the variant is bound in the pattern,
and returns a value exactly when the missing set is non-empty. -/
theorem c10_pattern_missing_fields_none_iff_all_bound (db : HirDatabase)
    (infer : InferenceResult) (id : PatId) (args : List RecordFieldPat)
    (v : VariantId)
    (hres : infer.variant_resolution_for_pat id = some v)
    (hnu : v.is_union = false) :
    (∀ r, record_pattern_missing_fields db infer id (Pat.record args) = some r →
      r.2 ≠ []) ∧
    (record_pattern_missing_fields db infer id (Pat.record args) = none ↔
      ∀ fd ∈ (db.variant_data v).fields,
        (args.map (fun f => f.name)).contains fd.name) := by
  rw [rpmf_eq, hres]
  simp only [hnu, Bool.false_eq_true, if_false]
  by_cases hm : (missed_field_ids db v (args.map (fun f => f.name))).isEmpty = true
  · refine ⟨?_, ?_⟩
    · intro r hr
      rw [if_pos hm] at hr
      exact Option.noConfusion hr
    · rw [if_pos hm]
      exact iff_of_true rfl
        ((missed_field_ids_nil_iff db v _).mp (List.isEmpty_iff.mp hm))
  · refine ⟨?_, ?_⟩
    · intro r hr
      rw [if_neg hm] at hr
      have hr2 : (v, missed_field_ids db v (args.map (fun f => f.name))) = r :=
        Option.some.inj hr
      intro hnil
      apply hm
      rw [List.isEmpty_iff]
      rw [← hr2] at hnil
      exact hnil
    · rw [if_neg hm]
      apply iff_of_false
      · exact fun h => Option.noConfusion h
      · intro hall
        apply hm
        rw [List.isEmpty_iff]
        exact (missed_field_ids_nil_iff db v _).mpr hall

/-- Witness for C10: a pattern `Point { x }` misses `y`, so the check
returns a non-empty value; binding both fields makes it return none. -/
theorem c10_witness :
    wInferPat.variant_resolution_for_pat 0 = some (VariantId.structId 0) ∧
    (VariantId.structId 0).is_union = false ∧
    ((∀ r, record_pattern_missing_fields wDb wInferPat 0
        (Pat.record [⟨Name.text "x"⟩]) = some r → r.2 ≠ []) ∧
     (record_pattern_missing_fields wDb wInferPat 0
        (Pat.record [⟨Name.text "x"⟩]) = none ↔
       ∀ fd ∈ (wDb.variant_data (VariantId.structId 0)).fields,
         (([⟨Name.text "x"⟩] : List RecordFieldPat).map
           (fun f => f.name)).contains fd.name)) :=
  ⟨rfl, rfl,
   c10_pattern_missing_fields_none_iff_all_bound wDb wInferPat 0 [⟨Name.text "x"⟩]
     (VariantId.structId 0) rfl rfl⟩

/-- Claim C5: a MissingMatchArms diagnostic is pushed only when the
scrutinee's inferred type is known and the usefulness oracle answers Useful
for the synthetic wildcard row against the accumulated matrix; an unknown
scrutinee type, a NotUseful verdict, or an oracle error produces no
diagnostic. -/
theorem c5_match_diag_requires_known_type_and_useful (is_useful : UsefulnessOracle)
    (infer : InferenceResult) (body : Body) (sm : BodySourceMap)
    (id : ExprId) (scrut : ExprId) (arms : List MatchArm) (d : Diagnostic)
    (hd : d ∈ validate_match is_useful infer body sm id scrut arms) :
    ∃ scrut_ty, infer.type_of_expr scrut = some scrut_ty ∧
      is_useful ⟨body, infer⟩ (match_check_matrix infer scrut_ty arms)
        PatStack.from_wild = Except.ok Usefulness.useful := by
  unfold validate_match at hd
  split at hd
  · simp at hd
  · rename_i scrut_ty hty
    refine ⟨scrut_ty, hty, ?_⟩
    split at hd
    · rename_i hu
      exact hu
    · simp at hd
    · simp at hd

/-- Witness for C5: with a known boolean scrutinee type and an oracle that
answers Useful, a MissingMatchArms diagnostic is pushed. -/
theorem c5_witness :
    Diagnostic.missingMatchArms 3 1 2 ∈
      validate_match wOracle wInferBool wBody wSmMatch 5 7 [⟨0⟩] ∧
    ∃ scrut_ty, wInferBool.type_of_expr 7 = some scrut_ty ∧
      wOracle ⟨wBody, wInferBool⟩ (match_check_matrix wInferBool scrut_ty [⟨0⟩])
        PatStack.from_wild = Except.ok Usefulness.useful :=
  ⟨by decide,
   c5_match_diag_requires_known_type_and_useful wOracle wInferBool wBody wSmMatch
     5 7 [⟨0⟩] (Diagnostic.missingMatchArms 3 1 2) (by decide)⟩

/-- Claim C6: given that the source map resolves the tail expression to a
concrete node, a MissingOkInTailExpr diagnostic anchored at that node is
emitted exactly when a mismatch is recorded for the whole body block, the
standard Result enum resolves in scope, the mismatch's expected type applies
that constructor to exactly two parameters, and the actual type equals the
first parameter; any deviation yields no diagnostic. -/
theorem c6_tail_expr_ok_wrapping_iff (resolver : Resolver) (infer : InferenceResult)
    (sm : BodySourceMap) (body_id id : ExprId) (ptr : ExprSourcePtr) (e : AstExpr)
    (hsm : sm.expr_syntax id = some ptr) (hleft : ptr.value = Sum.inl e) :
    (validate_results_in_tail_expr resolver infer sm body_id id =
        [Diagnostic.missingOkInTailExpr ptr.file_id e] ↔
      ∃ mismatch res_enum parameters,
        infer.type_mismatch_for_expr body_id = some mismatch ∧
        resolver.resolve_known_enum std_result_path = some res_enum ∧
        mismatch.expected =
          Ty.apply (TypeCtor.adt (AdtId.enumId res_enum)) parameters ∧
        parameters.length = 2 ∧ parameters[0]? = some mismatch.actual) ∧
    (validate_results_in_tail_expr resolver infer sm body_id id = [] ∨
      validate_results_in_tail_expr resolver infer sm body_id id =
        [Diagnostic.missingOkInTailExpr ptr.file_id e]) := by
  cases hm : infer.type_mismatch_for_expr body_id with
  | none =>
    have hv : validate_results_in_tail_expr resolver infer sm body_id id = [] := by
      simp only [validate_results_in_tail_expr, hm]
    rw [hv]
    refine ⟨⟨fun h => absurd h (by simp), ?_⟩, Or.inl rfl⟩
    rintro ⟨mm, re, ps, h1, -⟩
    exact Option.noConfusion h1
  | some mismatch =>
    cases hr : resolver.resolve_known_enum std_result_path with
    | none =>
      have hv : validate_results_in_tail_expr resolver infer sm body_id id = [] := by
        simp only [validate_results_in_tail_expr, hm, hr]
      rw [hv]
      refine ⟨⟨fun h => absurd h (by simp), ?_⟩, Or.inl rfl⟩
      rintro ⟨mm, re, ps, h1, h2, -⟩
      exact Option.noConfusion h2
    | some res_enum =>
      cases hexp : mismatch.expected with
      | opaqueTy n =>
        have hv : validate_results_in_tail_expr resolver infer sm body_id id = [] := by
          simp only [validate_results_in_tail_expr, hm, hr, hexp]
        rw [hv]
        refine ⟨⟨fun h => absurd h (by simp), ?_⟩, Or.inl rfl⟩
        rintro ⟨mm, re, ps, h1, h2, h3, -⟩
        cases Option.some.inj h1
        rw [hexp] at h3
        exact Ty.noConfusion h3
      | apply ctor parameters =>
        by_cases hc : ctor = TypeCtor.adt (AdtId.enumId res_enum)
        · by_cases hp : parameters.length = 2 ∧ parameters[0]? = some mismatch.actual
          · have hv : validate_results_in_tail_expr resolver infer sm body_id id =
                [Diagnostic.missingOkInTailExpr ptr.file_id e] := by
              simp only [validate_results_in_tail_expr, hm, hr, hexp, hc, hp.1, hp.2,
                eq_self_iff_true, and_self, if_true, hsm, hleft]
            rw [hv]
            refine ⟨iff_of_true rfl ⟨mismatch, res_enum, parameters, rfl, rfl, ?_, hp.1, hp.2⟩,
              Or.inr rfl⟩
            rw [hexp, hc]
          · have hv : validate_results_in_tail_expr resolver infer sm body_id id = [] := by
              simp only [validate_results_in_tail_expr, hm, hr, hexp, hc,
                eq_self_iff_true, if_true]
              rw [if_neg hp]
            rw [hv]
            refine ⟨⟨fun h => absurd h (by simp), ?_⟩, Or.inl rfl⟩
            rintro ⟨mm, re, ps, h1, h2, h3, h4, h5⟩
            cases Option.some.inj h1
            cases Option.some.inj h2
            rw [hexp] at h3
            injection h3 with hctor hparams
            rw [hparams] at hp
            exact absurd ⟨h4, h5⟩ hp
        · have hv : validate_results_in_tail_expr resolver infer sm body_id id = [] := by
            simp only [validate_results_in_tail_expr, hm, hr, hexp]
            rw [if_neg hc]
          rw [hv]
          refine ⟨⟨fun h => absurd h (by simp), ?_⟩, Or.inl rfl⟩
          rintro ⟨mm, re, ps, h1, h2, h3, -⟩
          cases Option.some.inj h1
          cases Option.some.inj h2
          rw [hexp] at h3
          injection h3 with hctor hparams
          exact absurd hctor hc

/-- Witness for C6: a recorded mismatch of expected `Result<I, E>` against
actual `I`, with Result resolving to enum 42, emits the diagnostic. -/
theorem c6_witness :
    wSmTail.expr_syntax 9 = some ⟨3, Sum.inl (AstExpr.other 11)⟩ ∧
    (⟨3, Sum.inl (AstExpr.other 11)⟩ : ExprSourcePtr).value =
      Sum.inl (AstExpr.other 11) ∧
    ((validate_results_in_tail_expr wResolver wInferMismatch wSmTail 0 9 =
        [Diagnostic.missingOkInTailExpr 3 (AstExpr.other 11)] ↔
      ∃ mismatch res_enum parameters,
        wInferMismatch.type_mismatch_for_expr 0 = some mismatch ∧
        wResolver.resolve_known_enum std_result_path = some res_enum ∧
        mismatch.expected =
          Ty.apply (TypeCtor.adt (AdtId.enumId res_enum)) parameters ∧
        parameters.length = 2 ∧ parameters[0]? = some mismatch.actual) ∧
     (validate_results_in_tail_expr wResolver wInferMismatch wSmTail 0 9 = [] ∨
      validate_results_in_tail_expr wResolver wInferMismatch wSmTail 0 9 =
        [Diagnostic.missingOkInTailExpr 3 (AstExpr.other 11)])) :=
  ⟨rfl, rfl,
   c6_tail_expr_ok_wrapping_iff wResolver wInferMismatch wSmTail 0 9
     ⟨3, Sum.inl (AstExpr.other 11)⟩ (AstExpr.other 11) rfl rfl⟩

/-- Claim C7: running the lowering walk once for the semantic arena and
independently a second time for the index-to-syntax-node map yields
index-identical results: each has exactly one entry per source item in
declaration order, and for every index the map's i-th syntax node is the
node from which the arena's i-th semantic value was built. -/
theorem c7_lowering_runs_are_index_aligned (e : AstEnumDef) (k : AstStructKind) :
    ((EnumData.enum_data_query e).variants.length = (enum_child_source e).length ∧
     (enum_child_source e).length = (e.variant_list.getD []).length ∧
     ∀ i : Nat, ((EnumData.enum_data_query e).variants)[i]? =
       ((enum_child_source e)[i]?).map lowered_enum_variant) ∧
    ((VariantData.new k).fields.length = (variant_child_source k).length ∧
     (variant_child_source k).length = ast_field_count k ∧
     ∀ i : Nat, ((VariantData.new k).fields)[i]? =
       ((variant_child_source k)[i]?).map (fun nd => field_data_of_node nd i)) := by
  constructor
  · rw [enum_variants_eq, enum_child_source_eq]
    refine ⟨List.length_map _ _, rfl, ?_⟩
    intro i
    rw [List.getElem?_map]
  · rw [variantData_new_fields, variant_child_source_eq]
    cases k with
    | tuple fl =>
      simp only [struct_field_values, struct_field_nodes, ast_field_count]
      refine ⟨by simp, by simp, ?_⟩
      intro i
      rw [List.getElem?_map, List.getElem?_map, List.getElem?_enum]
      cases fl[i]? with
      | none => rfl
      | some fd => rfl
    | record fl =>
      simp only [struct_field_values, struct_field_nodes, ast_field_count]
      refine ⟨by simp, by simp, ?_⟩
      intro i
      rw [List.getElem?_map, List.getElem?_map]
      cases fl[i]? with
      | none => rfl
      | some fd => rfl
    | unit =>
      exact ⟨rfl, rfl, fun i => rfl⟩

end RAnalyzer
